import Mathlib

/-!
Shallow embedding of the gosparkpost event-decoding pipeline:
`api.AssertJson`, `api.API.ReadBody`, `message_events.Samples` and
`message_events.ParseEvents`, together with the discriminator regex
`typeMatch = "\"type\":\\s*\"(\\w+)\""`.

The type registry (`events.EventForName`, `events.ValidEventType`) and the
JSON codec (`encoding/json`) live outside this repository slice, so the
definitions below are parametrized over:
  * `efn : String → Option α`   — `events.EventForName` (nil = unregistered);
  * `um  : String → α → Except String α` — `json.Unmarshal` of a record into
    the registry-produced instance (error = decode failure);
  * `pe  : String → Except String (List (String × List String))` —
    `json.Unmarshal` of the response body into `map[string][]*json.RawMessage`;
  * `valid : String → Bool`     — `events.ValidEventType`;
  * `fetch` — the HTTP transport (`HttpGet`), keyed by URL base and the
    decoded query parameters.
-/

/-- Content type constant `jctype` from api.go. -/
def jctype : String := "application/json"

/-- RE2 `\w`: ASCII word character `[0-9A-Za-z_]`. -/
def isWordChar (c : Char) : Bool :=
  (c ≥ 'a' && c ≤ 'z') || (c ≥ 'A' && c ≤ 'Z') || (c ≥ '0' && c ≤ '9') || c == '_'

/-- RE2 `\s`: whitespace `[\t\n\f\r ]`. -/
def isSpaceChar (c : Char) : Bool :=
  c == ' ' || c == '\t' || c == '\n' || c == '\x0c' || c == '\r'

/-- Match a literal character sequence at the head of the input,
returning the remaining input on success. -/
def matchLit : List Char → List Char → Option (List Char)
  | [], rest => some rest
  | _ :: _, [] => none
  | l :: ls, c :: cs => if l == c then matchLit ls cs else none

/-- Greedily consume `\s*`. Greedy matching is faithful to RE2 here because
the character after the whitespace run must be `"`, which is not in `\s`. -/
def dropSpaces : List Char → List Char
  | [] => []
  | c :: cs => if isSpaceChar c then dropSpaces cs else c :: cs

/-- Greedily consume `\w*`, returning the consumed run and the rest.
Greedy matching is faithful to RE2 because the character after the run must
be `"`, which is not a word character, so no shorter match can succeed. -/
def takeWord : List Char → List Char × List Char
  | [] => ([], [])
  | c :: cs =>
    if isWordChar c then
      let p := takeWord cs
      (c :: p.1, p.2)
    else ([], c :: cs)

/-- Attempt the regex `"type":\s*"(\w+)"` anchored at the head of the input,
returning the capture group (the kind-tag) on success. -/
def matchTypeAt (s : List Char) : Option (List Char) :=
  match matchLit "\"type\":".data s with
  | none => none
  | some s1 =>
    match dropSpaces s1 with
    | [] => none
    | q :: s3 =>
      if q == '"' then
        let p := takeWord s3
        if p.1.isEmpty then none
        else
          match p.2 with
          | [] => none
          | q2 :: _ => if q2 == '"' then some p.1 else none
      else none

/-- Leftmost match: try `matchTypeAt` at each successive start position.
Models `typeMatch.FindStringSubmatch` returning the first capture. -/
def findTypeMatchAux : List Char → Option (List Char)
  | [] => none
  | c :: cs =>
    match matchTypeAt (c :: cs) with
    | some w => some w
    | none => findTypeMatchAux cs

/-- `typeMatch.FindStringSubmatch(j)[1]`: the capture group of the leftmost
occurrence of `"type":\s*"(\w+)"` in the record, or `none` when the pattern
does not occur (Go: `len(tstr) < 2`). -/
def typeMatchFind (s : String) : Option String :=
  (findTypeMatchAux s.data).map fun w => String.mk w

/-- `message_events.ParseEvents`: per record, extract the kind-tag (failure is
fatal for the whole batch), look it up in the registry (absence skips the
record), decode the record (failure is fatal, named), and collect the decoded
events in order. -/
def ParseEvents {α : Type} (efn : String → Option α)
    (um : String → α → Except String α) : List String → Except String (List α)
  | [] => .ok []
  | j :: rest =>
    match typeMatchFind j with
    | none => .error ("ParseEvents didn't find an event type in:\n" ++ j)
    | some t =>
      match efn t with
      | none => ParseEvents efn um rest
      | some e =>
        match um j e with
        | .error msg => .error ("error parsing [" ++ t ++ "]: " ++ msg)
        | .ok e2 =>
          match ParseEvents efn um rest with
          | .error msg => .error msg
          | .ok es => .ok (e2 :: es)

/-- The event a single record contributes to the output: `some` exactly when
its kind-tag extracts, is registered, and the record decodes. -/
def decodeOne {α : Type} (efn : String → Option α)
    (um : String → α → Except String α) (j : String) : Option α :=
  match typeMatchFind j with
  | none => none
  | some t =>
    match efn t with
    | none => none
    | some e =>
      match um j e with
      | .error _ => none
      | .ok e2 => some e2

/-- A record's extracted kind-tag resolves in the registry. -/
def recordRegistered {α : Type} (efn : String → Option α) (j : String) : Bool :=
  match typeMatchFind j with
  | none => false
  | some t => (efn t).isSome

/-- Go `strings.EqualFold` restricted to ASCII case folding (the comparisons
in this code are against the ASCII constant `jctype`). -/
def eqFold (a b : String) : Bool :=
  a.data.map Char.toLower == b.data.map Char.toLower

/-- Go `strings.HasPrefix` (case-sensitive). -/
def listStartsWith : List Char → List Char → Bool
  | _, [] => true
  | [], _ :: _ => false
  | c :: cs, d :: ds => c == d && listStartsWith cs ds

/-- The fields of an `*http.Response` that `AssertJson` and `Samples` read:
`Header.Get("Content-Type")` (empty string when absent), `StatusCode`, and
the bytes `ReadBody` would return. -/
structure GoHttpResponse where
  contentType : String
  statusCode : Nat
  body : String
deriving DecidableEq

/-- `api.AssertJson`: `none` models a nil `*http.Response`. -/
def AssertJson (res : Option GoHttpResponse) : Except String Unit :=
  match res with
  | none => .error "AssertJson got nil http.Response"
  | some r =>
    let ctype := r.contentType
    if !(eqFold ctype jctype || listStartsWith ctype.data jctype.data) then
      .error ("Expected json, got [" ++ ctype ++ "] with code "
        ++ toString r.statusCode)
    else .ok ()

/-- The samples endpoint URL: `BaseUrl + Path + "/events/samples"`. -/
def samplesUrl (baseUrl path : String) : String :=
  baseUrl ++ path ++ "/events/samples"

/-- The type-validation loop of `Samples`: the first kind rejected by
`events.ValidEventType` aborts with `Invalid event type [<kind>]`. -/
def validateTypes (valid : String → Bool) : List String → Except String Unit
  | [] => .ok ()
  | t :: ts =>
    if !(valid t) then .error ("Invalid event type [" ++ t ++ "]")
    else validateTypes valid ts

/-- The part of `Samples` after the HTTP request: transport errors propagate;
`AssertJson` guards the content type; the body is unmarshalled into
`map[string][]*json.RawMessage`; a missing `results` key is
`no results!`; otherwise the records go to `ParseEvents`. -/
def samplesHandleResponse {α : Type} (efn : String → Option α)
    (um : String → α → Except String α)
    (pe : String → Except String (List (String × List String)))
    (fr : Except String GoHttpResponse) : Except String (List α) :=
  match fr with
  | .error e => .error e
  | .ok res =>
    match AssertJson (some res) with
    | .error e => .error e
    | .ok _ =>
      match pe res.body with
      | .error e => .error e
      | .ok resMap =>
        match resMap.lookup "results" with
        | none => .error "no results!"
        | some results => ParseEvents efn um results

/-- `message_events.Samples`: with no filter the bare samples URL is fetched;
with a filter every requested kind is validated first (the first invalid kind
aborts before any request), then the kinds are joined with commas into the
single `events` query parameter. The query is modelled at the level of
decoded parameter values (Go percent-encodes the comma on the wire). -/
def Samples {α : Type} (valid : String → Bool) (efn : String → Option α)
    (um : String → α → Except String α)
    (pe : String → Except String (List (String × List String)))
    (fetch : String → List (String × String) → Except String GoHttpResponse)
    (baseUrl path : String) (types : Option (List String)) :
    Except String (List α) :=
  match types with
  | none => samplesHandleResponse efn um pe (fetch (samplesUrl baseUrl path) [])
  | some ts =>
    match validateTypes valid ts with
    | .error e => .error e
    | .ok _ =>
      samplesHandleResponse efn um pe
        (fetch (samplesUrl baseUrl path)
          [("events", String.intercalate "," ts)])

/-- `api.Response` as `ReadBody` sees it: the cached `Body` field
(`none` models a nil `[]byte`). -/
structure CachedResponse where
  body : Option String
deriving DecidableEq

/-- The fields of an `api.API` handle that `ReadBody` touches:
the `Response` pointer (`none` models nil). -/
structure APIHandle where
  response : Option CachedResponse
deriving DecidableEq

/-- `api.API.ReadBody`: the argument models what `ioutil.ReadAll(res.Body)`
would produce — the bytes read and an optional read error. When a body is
already cached on the handle it is returned with a nil error and the
argument is not touched; otherwise the body is read, cached, and returned
together with the read error. -/
def ReadBody (api : APIHandle) (res : String × Option String) :
    (String × Option String) × APIHandle :=
  match api.response with
  | some r =>
    match r.body with
    | some b => ((b, none), api)
    | none =>
      ((res.1, res.2), { response := some { body := some res.1 } })
  | none =>
    ((res.1, res.2), { response := some { body := some res.1 } })

/-! Concrete instances used by the witness theorems. -/

/-- Witness registry: kinds `delivery` and `bounce` are registered, with the
kind-tag itself standing in for the zero-value event instance. -/
def efnW : String → Option String :=
  fun t => if t == "delivery" || t == "bounce" then some t else none

/-- Witness decoder that always succeeds, yielding the raw record. -/
def umW : String → String → Except String String := fun j _ => .ok j

/-- Witness decoder that fails on one designated record. -/
def umFail (bad : String) : String → String → Except String String :=
  fun j e =>
    if j == bad then .error "unexpected end of JSON input" else .ok e

/-- Witness filter-validation predicate matching `efnW`. -/
def validW : String → Bool := fun t => t == "delivery" || t == "bounce"

/-- Witness envelope parser: an empty JSON object parses to an empty map
(no `results` key); anything else is a parse error. -/
def peW : String → Except String (List (String × List String)) :=
  fun b => if b == "\x7b\x7d" then .ok [] else .error "invalid character"

/-- Witness transport that always fails with a network error. -/
def fetchW : String → List (String × String) → Except String GoHttpResponse :=
  fun _ _ => .error "network unreachable"

/-- Witness transport returning an HTML error page. -/
def fetchHtml : String → List (String × String) → Except String GoHttpResponse :=
  fun _ _ => .ok ⟨"text/html", 403, "<html></html>"⟩

/-- Witness transport returning a JSON body with no `results` field. -/
def fetchEmptyJson : String → List (String × String) →
    Except String GoHttpResponse :=
  fun _ _ => .ok ⟨"application/json", 200, "\x7b\x7d"⟩

/-- Witness batch: two registered records around one unregistered record. -/
def recordsW : List String :=
  ["\x7b\"type\":\"delivery\"\x7d", "\x7b\"type\":\"unknownx\"\x7d",
   "\x7b\"type\":\"bounce\"\x7d"]

/-- Witness record whose kind-tag contains a character outside `\w`,
so the discriminator pattern has no match in it. -/
def recordBadTag : String := "\x7b\"type\":\"foo-bar\"\x7d"

/-- Witness record whose top-level `type` field is preceded in the byte
stream by a `"type":"..."` occurrence inside a nested value. -/
def recordNested : String :=
  "\x7b\"a\":\x7b\"type\":\"nested\"\x7d,\"type\":\"delivery\"\x7d"

/-! Claim theorems. -/

/-- **C10.** `AssertJson` called on a nil `http.Response` returns a
descriptive error rather than dereferencing the nil pointer: the nil guard
fires before any header or status-code access, so the function is total. -/
theorem AssertJson_nil_response :
    AssertJson none = .error "AssertJson got nil http.Response" := rfl

/-- **C9.** Once a body is cached on an API handle (`api.Response.Body` is
non-nil), every later `ReadBody` call returns the cached bytes with a nil
error and an unchanged handle, ignoring the `http.Response` argument; and
after a first call on a handle with no cached body, a second call with any
other response returns the first call's bytes with a nil error, so a read
error from the first call is not re-reported. -/
theorem ReadBody_memoized :
    (∀ (api : APIHandle) (r : CachedResponse) (b : String)
        (res : String × Option String),
      api.response = some r → r.body = some b →
      ReadBody api res = ((b, none), api)) ∧
    (∀ (st : APIHandle) (bytes : String) (err : Option String)
        (res2 : String × Option String),
      (st.response = none ∨ ∃ r0, st.response = some r0 ∧ r0.body = none) →
      ReadBody (ReadBody st (bytes, err)).2 res2
        = ((bytes, none), (ReadBody st (bytes, err)).2)) := by
  constructor
  · intro api r b res h1 h2
    simp [ReadBody, h1, h2]
  · intro st bytes err res2 h
    rcases h with h | ⟨r0, hr, hb⟩
    · simp [ReadBody, h]
    · simp [ReadBody, hr, hb]

/-- **C9 witness.** A handle already holding a cached body returns it with a
nil error for a different response; on a fresh handle, the first call
reports its read error once, and the second call silently returns the first
body with a nil error. -/
theorem ReadBody_memoized_witness :
    ReadBody ⟨some ⟨some "cached"⟩⟩ ("other", some "read failed")
      = (("cached", none), ⟨some ⟨some "cached"⟩⟩) ∧
    ReadBody (ReadBody ⟨none⟩ ("first", some "read failed")).2 ("second", none)
      = (("first", none), (ReadBody ⟨none⟩ ("first", some "read failed")).2) :=
  ⟨ReadBody_memoized.1 _ _ _ _ rfl rfl,
   ReadBody_memoized.2 ⟨none⟩ "first" (some "read failed") ("second", none)
     (Or.inl rfl)⟩

/-- **C8.** The kind-tag the discriminator extractor returns is the capture
group of the leftmost occurrence of `"type":\s*"(\w+)"` in the record's
bytes: if the pattern matches at position `i` and at no earlier position,
that match's capture is the result, regardless of where the top-level
`type` field sits. -/
theorem typeMatchFind_first_occurrence (s : List Char) (i : Nat)
    (w : List Char)
    (h1 : matchTypeAt (s.drop i) = some w)
    (h2 : ∀ j, j < i → matchTypeAt (s.drop j) = none) :
    findTypeMatchAux s = some w := by
  induction s generalizing i with
  | nil =>
    rw [List.drop_nil] at h1
    simp [matchTypeAt, matchLit] at h1
  | cons c cs ih =>
    cases i with
    | zero =>
      rw [List.drop_zero] at h1
      unfold findTypeMatchAux
      rw [h1]
    | succ i =>
      have h0 : matchTypeAt (c :: cs) = none := by
        have := h2 0 (Nat.succ_pos _)
        rwa [List.drop_zero] at this
      unfold findTypeMatchAux
      rw [h0]
      exact ih i (by simpa using h1)
        (fun j hj => by simpa using h2 (j + 1) (by omega))

/-- **C8 witness.** In a record whose top-level `type` field is preceded by
a `"type":"nested"` occurrence inside a nested value, dispatch is decided by
the earlier nested occurrence: the extractor returns `nested`, not
`delivery`. -/
theorem typeMatchFind_first_occurrence_witness :
    findTypeMatchAux recordNested.data = some ("nested".data) ∧
    typeMatchFind recordNested = some "nested" :=
  ⟨typeMatchFind_first_occurrence recordNested.data 6 ("nested".data)
     (by decide) (by decide),
   by rfl⟩

/-- **C2.** If any record in the batch contains no match of the
discriminator pattern (in particular when the kind-tag has characters
outside `[A-Za-z0-9_]`), `ParseEvents` returns an error and no event list:
the `Except` result is an `error`, so no partial output for the preceding
records is produced. -/
theorem ParseEvents_missing_tag_errors {α : Type} (efn : String → Option α)
    (um : String → α → Except String α) (jlist : List String)
    (h : ∃ j ∈ jlist, typeMatchFind j = none) :
    ∃ msg, ParseEvents efn um jlist = .error msg := by
  induction jlist with
  | nil => simp at h
  | cons j rest ih =>
    by_cases hj : typeMatchFind j = none
    · exact ⟨"ParseEvents didn't find an event type in:\n" ++ j,
        by simp [ParseEvents, hj]⟩
    · obtain ⟨j0, hmem, hj0⟩ := h
      have hrest : ∃ j0 ∈ rest, typeMatchFind j0 = none := by
        rcases List.mem_cons.mp hmem with rfl | hmem2
        · exact absurd hj0 hj
        · exact ⟨j0, hmem2, hj0⟩
      obtain ⟨msg, hmsg⟩ := ih hrest
      cases ht : typeMatchFind j with
      | none => exact absurd ht hj
      | some t =>
        cases he : efn t with
        | none => exact ⟨msg, by simp [ParseEvents, ht, he, hmsg]⟩
        | some e =>
          cases hu : um j e with
          | error m =>
            exact ⟨"error parsing [" ++ t ++ "]: " ++ m,
              by simp [ParseEvents, ht, he, hu]⟩
          | ok e2 =>
            exact ⟨msg, by simp [ParseEvents, ht, he, hu, hmsg]⟩

/-- **C2 witness.** A batch whose second record's kind-tag contains `-`
(outside `\w`, so the pattern has no match) makes `ParseEvents` fail with
the discriminator error even though the first record is decodable. -/
theorem ParseEvents_missing_tag_errors_witness :
    (∃ msg, ParseEvents efnW umW ["\x7b\"type\":\"delivery\"\x7d", recordBadTag]
        = .error msg) ∧
    ParseEvents efnW umW ["\x7b\"type\":\"delivery\"\x7d", recordBadTag]
      = .error ("ParseEvents didn't find an event type in:\n" ++ recordBadTag) :=
  ⟨ParseEvents_missing_tag_errors efnW umW _
     ⟨recordBadTag, by decide, by decide⟩,
   by rfl⟩

/-- **C4.** A record whose extracted kind-tag is registered but whose JSON
fails to decode into the registry-produced instance aborts the whole batch
(records after it are ignored) with an error naming the failing kind and
carrying the underlying parse error, provided the records before it decode
or are skipped (an earlier fault would abort the batch first). -/
theorem ParseEvents_decode_fault_named {α : Type} (efn : String → Option α)
    (um : String → α → Except String α) (pre : List String) (j : String)
    (post : List String) (t : String) (e : α) (msg : String)
    (hpre : ∀ p ∈ pre, ∃ tp, typeMatchFind p = some tp ∧
        (efn tp = none ∨ ∃ ep ep2, efn tp = some ep ∧ um p ep = .ok ep2))
    (ht : typeMatchFind j = some t) (he : efn t = some e)
    (hu : um j e = .error msg) :
    ParseEvents efn um (pre ++ j :: post)
      = .error ("error parsing [" ++ t ++ "]: " ++ msg) := by
  induction pre with
  | nil =>
    show ParseEvents efn um (j :: post) = _
    simp [ParseEvents, ht, he, hu]
  | cons p ps ih =>
    obtain ⟨tp, htp, hcase⟩ := hpre p (List.mem_cons_self _ _)
    have ih2 := ih (fun q hq => hpre q (List.mem_cons_of_mem _ hq))
    rcases hcase with hnone | ⟨ep, ep2, hep, hok⟩
    · show ParseEvents efn um (p :: (ps ++ j :: post)) = _
      simp [ParseEvents, htp, hnone, ih2]
    · show ParseEvents efn um (p :: (ps ++ j :: post)) = _
      simp [ParseEvents, htp, hep, hok, ih2]

/-- **C4 witness.** With `delivery` and `bounce` registered and a decoder
that fails on the second record (a registered `bounce`), the batch of three
records aborts with `error parsing [bounce]: ...` naming the kind and the
underlying decode error. -/
theorem ParseEvents_decode_fault_named_witness :
    ParseEvents efnW (umFail "\x7b\"type\":\"bounce\"\x7d")
      ["\x7b\"type\":\"delivery\"\x7d", "\x7b\"type\":\"bounce\"\x7d",
       "\x7b\"type\":\"open\"\x7d"]
      = .error "error parsing [bounce]: unexpected end of JSON input" :=
  ParseEvents_decode_fault_named efnW (umFail "\x7b\"type\":\"bounce\"\x7d")
    ["\x7b\"type\":\"delivery\"\x7d"] "\x7b\"type\":\"bounce\"\x7d"
    ["\x7b\"type\":\"open\"\x7d"] "bounce" "bounce"
    "unexpected end of JSON input"
    (by
      intro p hp
      have hp2 := List.mem_singleton.mp hp
      subst hp2
      exact ⟨"delivery", by decide,
        Or.inr ⟨"delivery", "delivery", by decide, rfl⟩⟩)
    (by decide) (by decide) rfl

/-- **C1.** When every record in the batch yields a kind-tag via the
discriminator pattern and every registered record decodes, `ParseEvents`
returns exactly the decoded events of the records whose kind is registered:
the output is the in-order `filterMap` of the per-record decode (so the
relative order of recognized records is preserved and the sequence has no
gaps), and its length is `N - K` where `K` counts the records with
unregistered kinds. -/
theorem ParseEvents_registered_complete {α : Type} (efn : String → Option α)
    (um : String → α → Except String α) (jlist : List String)
    (hTag : ∀ j ∈ jlist, (typeMatchFind j).isSome = true)
    (hDec : ∀ j ∈ jlist, ∀ t e, typeMatchFind j = some t → efn t = some e →
        ∃ e2, um j e = .ok e2) :
    ParseEvents efn um jlist = .ok (jlist.filterMap (decodeOne efn um)) ∧
    (jlist.filterMap (decodeOne efn um)).length
      = jlist.length
        - (jlist.filter (fun j => !(recordRegistered efn j))).length := by
  have main : ParseEvents efn um jlist
        = .ok (jlist.filterMap (decodeOne efn um)) ∧
      (jlist.filterMap (decodeOne efn um)).length
          + (jlist.filter (fun j => !(recordRegistered efn j))).length
        = jlist.length := by
    induction jlist with
    | nil => exact ⟨rfl, rfl⟩
    | cons j rest ih =>
      have hTagj := hTag j (List.mem_cons_self _ _)
      obtain ⟨t, ht⟩ := Option.isSome_iff_exists.mp hTagj
      have ihr := ih (fun q hq => hTag q (List.mem_cons_of_mem _ hq))
        (fun q hq => hDec q (List.mem_cons_of_mem _ hq))
      cases he : efn t with
      | none =>
        have hd1 : decodeOne efn um j = none := by simp [decodeOne, ht, he]
        have hr1 : recordRegistered efn j = false := by
          simp [recordRegistered, ht, he]
        constructor
        · show ParseEvents efn um (j :: rest) = _
          simp only [List.filterMap_cons, hd1]
          simp [ParseEvents, ht, he, ihr.1]
        · have h2 := ihr.2
          simp [List.filterMap_cons, hd1, List.filter_cons, hr1]
          omega
      | some e =>
        obtain ⟨e2, hu⟩ := hDec j (List.mem_cons_self _ _) t e ht he
        have hd1 : decodeOne efn um j = some e2 := by
          simp [decodeOne, ht, he, hu]
        have hr1 : recordRegistered efn j = true := by
          simp [recordRegistered, ht, he]
        constructor
        · show ParseEvents efn um (j :: rest) = _
          simp only [List.filterMap_cons, hd1]
          simp [ParseEvents, ht, he, hu, ihr.1]
        · have h2 := ihr.2
          simp [List.filterMap_cons, hd1, List.filter_cons, hr1]
          omega
  exact ⟨main.1, by have h2 := main.2; omega⟩

/-- **C1 witness.** A batch of three tagged records, the middle one of an
unregistered kind, decodes to exactly the two registered records in their
original order: length `3 - 1 = 2`, no gaps. -/
theorem ParseEvents_registered_complete_witness :
    (ParseEvents efnW umW recordsW
        = .ok (recordsW.filterMap (decodeOne efnW umW)) ∧
      (recordsW.filterMap (decodeOne efnW umW)).length
        = recordsW.length
          - (recordsW.filter (fun j => !(recordRegistered efnW j))).length) ∧
    ParseEvents efnW umW recordsW
      = .ok ["\x7b\"type\":\"delivery\"\x7d", "\x7b\"type\":\"bounce\"\x7d"] ∧
    recordsW.length = 3 ∧
    (recordsW.filterMap (decodeOne efnW umW)).length = 2 :=
  ⟨ParseEvents_registered_complete efnW umW recordsW (by decide)
     (fun j _ t e _ _ => ⟨j, rfl⟩),
   by rfl, by rfl, by rfl⟩

/-- Helper: the validation loop fails on the first invalid kind, naming it. -/
theorem validateTypes_first_invalid (valid : String → Bool) :
    ∀ (ts : List String) (bad : String),
      ts.find? (fun t => !(valid t)) = some bad →
      validateTypes valid ts = .error ("Invalid event type [" ++ bad ++ "]") := by
  intro ts
  induction ts with
  | nil => intro bad h; simp [List.find?] at h
  | cons t ts ih =>
    intro bad h
    cases hp : valid t with
    | true =>
      have h2 : ts.find? (fun t => !(valid t)) = some bad := by
        simpa [List.find?_cons, hp] using h
      simp [validateTypes, hp, ih bad h2]
    | false =>
      have h2 : bad = t := by
        have := h
        simp [List.find?_cons, hp] at this
        exact this.symm
      subst h2
      simp [validateTypes, hp]

/-- Helper: the validation loop succeeds when every kind validates. -/
theorem validateTypes_all_valid (valid : String → Bool) :
    ∀ ts : List String, (∀ t ∈ ts, valid t = true) →
      validateTypes valid ts = .ok () := by
  intro ts
  induction ts with
  | nil => intro _; rfl
  | cons t ts ih =>
    intro h
    simp [validateTypes, h t (List.mem_cons_self _ _),
      ih (fun q hq => h q (List.mem_cons_of_mem _ hq))]

/-- **C3.** When some requested kind fails registry validation, `Samples`
returns `Invalid event type [<kind>]` naming the first invalid kind, and no
HTTP request is made: the result is the same for every transport `fetch`.
Conversely, when every requested kind validates, the request is sent (the
result is the transport's response fed to the response pipeline). -/
theorem Samples_invalid_filter_errors {α : Type} (valid : String → Bool)
    (efn : String → Option α) (um : String → α → Except String α)
    (pe : String → Except String (List (String × List String)))
    (baseUrl path : String) (ts : List String) (bad : String)
    (h : ts.find? (fun t => !(valid t)) = some bad) :
    ∀ fetch, Samples valid efn um pe fetch baseUrl path (some ts)
      = .error ("Invalid event type [" ++ bad ++ "]") := by
  intro fetch
  show (match validateTypes valid ts with
    | Except.error e => Except.error e
    | Except.ok _ => samplesHandleResponse efn um pe
        (fetch (samplesUrl baseUrl path)
          [("events", String.intercalate "," ts)])) = _
  rw [validateTypes_first_invalid valid ts bad h]

/-- **C3 witness.** Requesting kinds `["delivery", "bogus_kind"]` fails
naming `bogus_kind`, with a transport stub whose error never surfaces:
no request is performed. -/
theorem Samples_invalid_filter_errors_witness :
    Samples validW efnW umW peW fetchW "https://api.sparkpost.com"
      "/api/v1/message-events" (some ["delivery", "bogus_kind"])
      = .error "Invalid event type [bogus_kind]" :=
  Samples_invalid_filter_errors validW efnW umW peW
    "https://api.sparkpost.com" "/api/v1/message-events"
    ["delivery", "bogus_kind"] "bogus_kind" (by decide) fetchW

/-- **C5.** When the response body parses as JSON but the top-level object
has no `results` field, `Samples` returns the named error `no results!`
rather than an empty event list. -/
theorem Samples_missing_results_errors {α : Type} (valid : String → Bool)
    (efn : String → Option α) (um : String → α → Except String α)
    (pe : String → Except String (List (String × List String)))
    (fetch : String → List (String × String) → Except String GoHttpResponse)
    (baseUrl path : String) (res : GoHttpResponse)
    (resMap : List (String × List String))
    (hfetch : fetch (samplesUrl baseUrl path) [] = .ok res)
    (hct : AssertJson (some res) = .ok ())
    (hpe : pe res.body = .ok resMap)
    (hmap : resMap.lookup "results" = none) :
    Samples valid efn um pe fetch baseUrl path none = .error "no results!" := by
  show samplesHandleResponse efn um pe (fetch (samplesUrl baseUrl path) []) = _
  rw [hfetch]
  simp [samplesHandleResponse, hct, hpe, hmap]

/-- **C5 witness.** A `200 application/json` response whose body is the
empty JSON object (parsed envelope has no `results` key) makes `Samples`
fail with `no results!`. -/
theorem Samples_missing_results_errors_witness :
    Samples validW efnW umW peW fetchEmptyJson "https://api.sparkpost.com"
      "/api/v1/message-events" none = .error "no results!" :=
  Samples_missing_results_errors validW efnW umW peW fetchEmptyJson
    "https://api.sparkpost.com" "/api/v1/message-events"
    ⟨"application/json", 200, "\x7b\x7d"⟩ [] rfl rfl rfl rfl

/-- **C7.** With a non-nil, fully valid filter set, `Samples` sends the
request to the base samples URL with the requested kinds joined into the
single comma-separated `events` query parameter: the result is the
transport's response at exactly that URL and query, fed to the response
pipeline. -/
theorem Samples_query_events_param {α : Type} (valid : String → Bool)
    (efn : String → Option α) (um : String → α → Except String α)
    (pe : String → Except String (List (String × List String)))
    (fetch : String → List (String × String) → Except String GoHttpResponse)
    (baseUrl path : String) (ts : List String)
    (h : ∀ t ∈ ts, valid t = true) :
    Samples valid efn um pe fetch baseUrl path (some ts)
      = samplesHandleResponse efn um pe
          (fetch (samplesUrl baseUrl path)
            [("events", String.intercalate "," ts)]) := by
  show (match validateTypes valid ts with
    | Except.error e => Except.error e
    | Except.ok _ => samplesHandleResponse efn um pe
        (fetch (samplesUrl baseUrl path)
          [("events", String.intercalate "," ts)])) = _
  rw [validateTypes_all_valid valid ts h]

/-- **C7 witness.** Requesting the valid kinds `["delivery", "bounce"]`
issues the request at
`https://api.sparkpost.com/api/v1/message-events/events/samples` with query
parameter `events=delivery,bounce`. -/
theorem Samples_query_events_param_witness :
    Samples validW efnW umW peW fetchW "https://api.sparkpost.com"
      "/api/v1/message-events" (some ["delivery", "bounce"])
      = samplesHandleResponse efnW umW peW
          (fetchW
            "https://api.sparkpost.com/api/v1/message-events/events/samples"
            [("events", "delivery,bounce")]) := by
  exact Samples_query_events_param validW efnW umW peW fetchW
    "https://api.sparkpost.com" "/api/v1/message-events"
    ["delivery", "bounce"] (by decide)

/-- **C6.** `AssertJson` accepts a response whose `Content-Type` is equal to
`application/json` up to ASCII case folding or carries it as a (case-
sensitive) prefix, and rejects any other content type with an error quoting
the offending content type and the HTTP status code; moreover `Samples`
applies this check before the body is parsed: on a rejected content type
its result is the guard's error for every body parser `pe`. -/
theorem AssertJson_content_type_guard (ct : String) (sc : Nat) (bd : String) :
    ((eqFold ct jctype || listStartsWith ct.data jctype.data) = true →
      AssertJson (some ⟨ct, sc, bd⟩) = .ok ()) ∧
    ((eqFold ct jctype || listStartsWith ct.data jctype.data) = false →
      AssertJson (some ⟨ct, sc, bd⟩)
        = .error ("Expected json, got [" ++ ct ++ "] with code "
            ++ toString sc)) ∧
    (∀ {α : Type} (valid : String → Bool) (efn : String → Option α)
        (um : String → α → Except String α)
        (fetch : String → List (String × String) →
          Except String GoHttpResponse)
        (baseUrl path : String),
      (eqFold ct jctype || listStartsWith ct.data jctype.data) = false →
      fetch (samplesUrl baseUrl path) [] = .ok ⟨ct, sc, bd⟩ →
      ∀ pe, Samples valid efn um pe fetch baseUrl path none
        = .error ("Expected json, got [" ++ ct ++ "] with code "
            ++ toString sc)) := by
  refine ⟨fun h => ?_, fun h => ?_, ?_⟩
  · simp [AssertJson, h]
  · simp [AssertJson, h]
  · intro α valid efn um fetch baseUrl path h hfetch pe
    show samplesHandleResponse efn um pe
      (fetch (samplesUrl baseUrl path) []) = _
    rw [hfetch]
    simp [samplesHandleResponse, AssertJson, h]

/-- **C6 witness.** `Application/JSON` (case-insensitive equality) and
`application/json; charset=utf-8` (prefix) are accepted; `text/html` with
status 403 is rejected quoting both, and `Samples` with an HTML-returning
transport fails with that guard error without consulting the body parser. -/
theorem AssertJson_content_type_guard_witness :
    AssertJson (some ⟨"Application/JSON", 200, "\x7b\x7d"⟩) = .ok () ∧
    AssertJson (some ⟨"application/json; charset=utf-8", 200, "\x7b\x7d"⟩)
      = .ok () ∧
    AssertJson (some ⟨"text/html", 403, "<html></html>"⟩)
      = .error "Expected json, got [text/html] with code 403" ∧
    Samples validW efnW umW peW fetchHtml "https://api.sparkpost.com"
      "/api/v1/message-events" none
      = .error "Expected json, got [text/html] with code 403" :=
  ⟨(AssertJson_content_type_guard "Application/JSON" 200 "\x7b\x7d").1
     (by decide),
   (AssertJson_content_type_guard "application/json; charset=utf-8" 200
     "\x7b\x7d").1 (by decide),
   (AssertJson_content_type_guard "text/html" 403 "<html></html>").2.1
     (by decide),
   (AssertJson_content_type_guard "text/html" 403 "<html></html>").2.2
     validW efnW umW fetchHtml "https://api.sparkpost.com"
     "/api/v1/message-events" (by decide) rfl peW⟩
